import Mathlib

/-!
Shallow embedding of the session/interval timing and statistics engine of
the Stillness meditation app (src/types.ts, the pause-supporting variant,
which the design document identifies as the canonical superset behavior).

Timestamps and durations are integer milliseconds, modelled as `Int`
(JavaScript number arithmetic on these magnitudes is exact).  The floating
point average `avgGap` is modelled in `ℚ`, exact for the values involved.
The ISO date string, derived injectively from the clock value, is modelled
by that clock value.  `localStorage` is modelled by two fields holding the
last value written under each key (serialisation is injective on these
values).  The periodic timer installed while the session is active and not
paused is modelled by a `tick` event that is a no-op in any other state,
matching the effect that clears the interval timer there.
-/

namespace Stillness

/-- `IntervalRecord` from src/types.ts: one closed stillness interval. -/
structure IntervalRecord where
  id : Nat
  duration : Int
  timestamp : Int
deriving DecidableEq

/-- `SessionRecord` from src/types.ts: one archived session. -/
structure SessionRecord where
  id : Int
  date : Int
  intervals : List IntervalRecord
  totalDuration : Int
  thoughtCount : Nat
  longestGap : Int
  avgGap : ℚ
deriving DecidableEq

/-- The mutable state of the `App` component in src/types.ts:
react state hooks, the `lastUpdateRef` ref, and the two
`localStorage` records the component writes. -/
structure AppState where
  isActive : Bool
  isPaused : Bool
  currentInterval : Int
  intervals : List IntervalRecord
  sessionStartTime : Option Int
  personalBest : Int
  allSessions : List SessionRecord
  lastUpdate : Int
  storagePB : Option Int
  storageSessions : Option (List SessionRecord)
deriving DecidableEq

/-- Initial react state: inactive, zeroed, empty. -/
def initState : AppState :=
  { isActive := false, isPaused := false, currentInterval := 0,
    intervals := [], sessionStartTime := none, personalBest := 0,
    allSessions := [], lastUpdate := 0, storagePB := none,
    storageSessions := none }

/-- `startSession` from src/types.ts; the timer effect re-runs on the
activity change and sets `lastUpdateRef.current = Date.now()`. -/
def startSession (now : Int) (s : AppState) : AppState :=
  { s with isActive := true, isPaused := false,
           sessionStartTime := some now,
           currentInterval := 0, intervals := [],
           lastUpdate := now }

/-- One firing of the interval timer from src/types.ts: the timer is
installed only while `isActive && !isPaused`, and adds the real
wall-clock delta since the previous update to `currentInterval`. -/
def tick (now : Int) (s : AppState) : AppState :=
  if s.isActive && !s.isPaused then
    { s with currentInterval := s.currentInterval + (now - s.lastUpdate),
             lastUpdate := now }
  else s

/-- `recordThought` from src/types.ts: guarded no-op when inactive or
paused; otherwise closes the open interval, opportunistically updates the
personal best (write-through to storage), and resets the open interval. -/
def recordThought (now : Int) (s : AppState) : AppState :=
  if !s.isActive || s.isPaused then s
  else
    let duration := s.currentInterval
    let newRecord : IntervalRecord :=
      { id := s.intervals.length + 1, duration := duration, timestamp := now }
    { s with
        intervals := s.intervals ++ [newRecord],
        personalBest := if duration > s.personalBest then duration
                        else s.personalBest,
        storagePB := if duration > s.personalBest then some duration
                     else s.storagePB,
        currentInterval := 0 }

/-- `togglePause` from src/types.ts; on resuming an active session the
timer effect re-runs and resets `lastUpdateRef.current = Date.now()`. -/
def togglePause (now : Int) (s : AppState) : AppState :=
  { s with isPaused := !s.isPaused,
           lastUpdate := if s.isActive && s.isPaused then now
                         else s.lastUpdate }

/-- The interval list `endSession` finalises: the closed intervals, plus
the still-open interval folded in when it exceeds the 500 ms threshold
(src/types.ts, `if (currentInterval > 500) finalIntervals.push ...`). -/
def finalIntervalsOf (now : Int) (s : AppState) : List IntervalRecord :=
  if s.currentInterval > 500 then
    s.intervals ++
      [{ id := s.intervals.length + 1, duration := s.currentInterval,
         timestamp := now }]
  else s.intervals

/-- `Math.max(...ds, 0)` from src/types.ts. -/
def listMax (l : List Int) : Int := l.foldr max 0

/-- The `sessionStats` record built in `endSession` (src/types.ts). -/
def mkSessionRecord (now : Int) (fi : List IntervalRecord) (total : Int) :
    SessionRecord :=
  { id := now, date := now, intervals := fi,
    totalDuration := total,
    thoughtCount := fi.length,
    longestGap := listMax (fi.map (·.duration)),
    avgGap := ((fi.map (·.duration)).sum : ℚ) / (fi.length : ℚ) }

/-- `endSession` from src/types.ts: deactivate, fold the open interval in
past the threshold, archive the session when any interval remains
(prepend, whole-collection write-through), and clear live state.
`sessionStartTime ? Date.now() - sessionStartTime : 0` is a JavaScript
truthiness test: both `null` and the falsy clock value `0` yield 0. -/
def endSession (now : Int) (s : AppState) : AppState :=
  let total : Int :=
    match s.sessionStartTime with
    | some t => if t ≠ 0 then now - t else 0
    | none => 0
  let fi := finalIntervalsOf now s
  let s1 := { s with isActive := false, isPaused := false }
  let s2 :=
    if fi.length > 0 then
      let sess := mkSessionRecord now fi total
      { s1 with allSessions := sess :: s1.allSessions,
                storageSessions := some (sess :: s1.allSessions) }
    else s1
  { s2 with currentInterval := 0, intervals := [] }

/-- `deleteSession` from src/types.ts: keep the sessions whose id
differs, and persist the result. -/
def deleteSession (id : Int) (s : AppState) : AppState :=
  let updated := s.allSessions.filter (fun r => r.id != id)
  { s with allSessions := updated, storageSessions := some updated }

/-- The five user intents plus the timer tick, each stamped with the
wall-clock value `Date.now()` returns inside the handler. -/
inductive Ev where
  | start (now : Int)
  | tick (now : Int)
  | record (now : Int)
  | toggle (now : Int)
  | finish (now : Int)
  | remove (id : Int)
deriving DecidableEq

/-- Dispatch one event to its handler. -/
def step (s : AppState) (e : Ev) : AppState :=
  match e with
  | .start now => startSession now s
  | .tick now => tick now s
  | .record now => recordThought now s
  | .toggle now => togglePause now s
  | .finish now => endSession now s
  | .remove id => deleteSession id s

/-- Run a sequence of events from a state. -/
def run (s : AppState) (evs : List Ev) : AppState := evs.foldl step s

theorem run_nil (s : AppState) : run s [] = s := rfl

theorem run_cons (s : AppState) (e : Ev) (evs : List Ev) :
    run s (e :: evs) = run (step s e) evs := rfl

/-! ### Startup load (src/types.ts, the `useEffect` load block) -/

/-- A JavaScript number that may be `NaN`, as produced by `parseInt`. -/
inductive JsNum where
  | nan
  | val (n : Int)
deriving DecidableEq

/-- Value of a non-empty run of decimal digit characters. -/
def digitsVal (ds : List Char) : Int :=
  (ds.foldl (fun acc c => acc * 10 + (c.toNat - 48)) 0 : Nat)

/-- `parseInt(s, 10)`: skip leading whitespace, an optional sign, then
read the longest run of decimal digits; `NaN` when no digit is read. -/
def parseIntJs (str : String) : JsNum :=
  let cs := str.toList.dropWhile Char.isWhitespace
  let signed : Int × List Char :=
    match cs with
    | c :: cs2 =>
      if c = '-' then (-1, cs2) else if c = '+' then (1, cs2) else (1, cs)
    | [] => (1, cs)
  let ds := signed.2.takeWhile Char.isDigit
  if ds.isEmpty then .nan else .val (signed.1 * digitsVal ds)

/-- The personal-best half of the load effect:
`if (storedPB) setPersonalBest(parseInt(storedPB, 10))` over the initial
value 0; a missing or empty (falsy) stored string leaves the 0. -/
def loadPersonalBest (stored : Option String) : JsNum :=
  match stored with
  | none => .val 0
  | some str => if str.isEmpty then .val 0 else parseIntJs str

/-- The archive half of the load effect: `JSON.parse` inside
`try ... catch (e) { setAllSessions([]) }`, over the initial value `[]`.
The host JSON parser is passed in as `parse`; `none` models a parse that
throws. -/
def loadSessions (parse : String → Option (List SessionRecord))
    (stored : Option String) : List SessionRecord :=
  match stored with
  | none => []
  | some str =>
    if str.isEmpty then []
    else
      match parse str with
      | some l => l
      | none => []

/-! ### Concrete states used by witnesses and counterexamples -/

/-- An active unpaused session with 42 ms on the open interval. -/
def sampleActive : AppState := run initState [Ev.start 0, Ev.tick 42]

/-- An active session paused 10 ms in. -/
def samplePaused : AppState := run initState [Ev.start 0, Ev.toggle 10]

/-- An active session with a 400 ms open interval and no closed ones. -/
def s400 : AppState := run initState [Ev.start 0, Ev.tick 400]

/-- An active session with an 800 ms open interval and no closed ones. -/
def s800 : AppState := run initState [Ev.start 0, Ev.tick 800]

/-- An archive holding one session (id 501). -/
def oneState : AppState := run initState [Ev.start 0, Ev.tick 501, Ev.finish 501]

/-- Two sessions finalised at the same millisecond share id 501: the
second session holds a single zero-duration interval recorded in the same
millisecond it started. -/
def dupState : AppState :=
  run initState [Ev.start 0, Ev.tick 501, Ev.finish 501,
                 Ev.start 501, Ev.record 501, Ev.finish 501]

/-- An active unpaused session with one closed zero-duration interval. -/
def oneTap : AppState := run initState [Ev.start 7, Ev.record 7]

/-- An active session with 500 ms elapsed, paused at t = 500. -/
def pausedAt500 : AppState :=
  run initState [Ev.start 0, Ev.tick 500, Ev.toggle 500]

/-- The spec's concrete scenario shifted to the non-zero start offset 1,
just before its `end()` call: start at t = 1, thoughts at t = 1201
(duration 1200 ms) and t = 1901 (duration 700 ms), 400 ms on the open
interval at t = 2301. -/
def scenarioPre : AppState :=
  run initState [Ev.start 1, Ev.tick 1201, Ev.record 1201, Ev.tick 1901,
                 Ev.record 1901, Ev.tick 2301]

/-- The spec's concrete scenario at its literal times, just before the
`end()` call: start at t = 0, thoughts at t = 1200 and t = 1900, 400 ms
on the open interval at t = 2300. -/
def scenarioZeroPre : AppState :=
  run initState [Ev.start 0, Ev.tick 1200, Ev.record 1200, Ev.tick 1900,
                 Ev.record 1900, Ev.tick 2300]

/-! ### Helper lemmas -/

theorem endSession_personalBest (now : Int) (s : AppState) :
    (endSession now s).personalBest = s.personalBest := by
  simp only [endSession]
  split <;> rfl

theorem endSession_storagePB (now : Int) (s : AppState) :
    (endSession now s).storagePB = s.storagePB := by
  simp only [endSession]
  split <;> rfl

theorem recordThought_best (now : Int) (s : AppState)
    (ha : s.isActive = true) (hp : s.isPaused = false) :
    (recordThought now s).personalBest = max s.personalBest s.currentInterval := by
  simp [recordThought, ha, hp]
  rw [max_def]
  split_ifs <;> omega

theorem step_best_le (s : AppState) (e : Ev) :
    s.personalBest ≤ (step s e).personalBest := by
  cases e with
  | start now => exact le_of_eq rfl
  | tick now =>
    simp only [step, Stillness.tick]
    split <;> exact le_refl _
  | record now =>
    simp only [step, recordThought]
    split
    · exact le_refl _
    · split
      · simp
        omega
      · simp
  | toggle now => exact le_of_eq rfl
  | finish now => exact le_of_eq (endSession_personalBest now s).symm
  | remove id => exact le_of_eq rfl

theorem run_best_le (evs : List Ev) (s : AppState) :
    s.personalBest ≤ (run s evs).personalBest := by
  induction evs generalizing s with
  | nil => exact le_refl _
  | cons e t ih => exact le_trans (step_best_le s e) (ih (step s e))

theorem tick_eq (now : Int) (s : AppState) (ha : s.isActive = true)
    (hp : s.isPaused = false) :
    tick now s =
      { s with currentInterval := s.currentInterval + (now - s.lastUpdate),
               lastUpdate := now } := by
  simp [tick, ha, hp]

theorem tick_of_paused (now : Int) (s : AppState) (hp : s.isPaused = true) :
    tick now s = s := by
  simp [tick, hp]

theorem togglePause_resume (r : Int) (s : AppState) (ha : s.isActive = true)
    (hp : s.isPaused = true) :
    togglePause r s = { s with isPaused := false, lastUpdate := r } := by
  simp [togglePause, ha, hp]

theorem run_ticks (ts : List Int) (s : AppState)
    (ha : s.isActive = true) (hp : s.isPaused = false) :
    run s (ts.map Ev.tick) =
      { s with
          currentInterval :=
            s.currentInterval + (ts.getLastD s.lastUpdate - s.lastUpdate),
          lastUpdate := ts.getLastD s.lastUpdate } := by
  induction ts generalizing s with
  | nil => simp [run, List.getLastD]
  | cons t rest ih =>
    rw [List.map_cons, run_cons]
    show run (tick t s) (rest.map Ev.tick) = _
    rw [tick_eq t s ha hp,
        ih { s with currentInterval := s.currentInterval + (t - s.lastUpdate),
                    lastUpdate := t } ha hp]
    have harith :
        s.currentInterval + (t - s.lastUpdate) + (rest.getLastD t - t)
          = s.currentInterval + (rest.getLastD t - s.lastUpdate) := by ring
    simp only [List.getLastD_cons, harith]

theorem le_listMax (l : List Int) : ∀ d ∈ l, d ≤ listMax l := by
  induction l with
  | nil => simp
  | cons x t ih =>
    intro d hd
    rcases List.mem_cons.mp hd with h | h
    · exact h ▸ le_max_left x (listMax t)
    · exact le_trans (ih d h) (le_max_right x (listMax t))

theorem listMax_mem_or_zero (l : List Int) : listMax l ∈ l ∨ listMax l = 0 := by
  induction l with
  | nil => exact Or.inr rfl
  | cons x t ih =>
    have hco : listMax (x :: t) = max x (listMax t) := rfl
    rcases max_choice x (listMax t) with h | h
    · exact Or.inl (by rw [hco, h]; exact List.mem_cons_self x t)
    · rcases ih with h2 | h2
      · exact Or.inl (by rw [hco, h]; exact List.mem_cons_of_mem x h2)
      · exact Or.inr (by rw [hco, h]; exact h2)

theorem filter_ne_eraseP (l : List SessionRecord) (id : Int)
    (hn : (l.map (·.id)).Nodup) :
    l.filter (fun r => r.id != id) = l.eraseP (fun r => r.id == id) := by
  induction l with
  | nil => rfl
  | cons a t ih =>
    rw [List.map_cons, List.nodup_cons] at hn
    by_cases h : a.id = id
    · have hfa : (a.id != id) = false := by simp [h]
      have hea : (a.id == id) = true := by simp [h]
      rw [List.filter_cons, List.eraseP_cons]
      simp only [hfa, hea, cond_true, if_false, Bool.false_eq_true]
      apply List.filter_eq_self.mpr
      intro r hr
      have hrid : r.id ≠ id := by
        intro hrid
        exact hn.1 (by rw [h, ← hrid]; exact List.mem_map_of_mem (·.id) hr)
      simpa using hrid
    · have hfa : (a.id != id) = true := by simp [h]
      have hea : (a.id == id) = false := by simp [h]
      rw [List.filter_cons, List.eraseP_cons]
      simp only [hfa, hea, cond_false, if_true]
      rw [ih hn.2]

theorem filter_ne_length (l : List SessionRecord) (id : Int)
    (hn : (l.map (·.id)).Nodup) (hm : ∃ r ∈ l, r.id = id) :
    (l.filter (fun r => r.id != id)).length + 1 = l.length := by
  rw [filter_ne_eraseP l id hn]
  obtain ⟨r, hr, hrid⟩ := hm
  have hlen : (l.eraseP (fun r => r.id == id)).length = l.length - 1 :=
    List.length_eraseP_of_mem hr (by simp [hrid])
  have hpos : 0 < l.length := List.length_pos.mpr (List.ne_nil_of_mem hr)
  omega

theorem filter_ne_idem (l : List SessionRecord) (id : Int) :
    (l.filter (fun r => r.id != id)).filter (fun r => r.id != id)
      = l.filter (fun r => r.id != id) := by
  apply List.filter_eq_self.mpr
  intro a ha
  simpa using List.of_mem_filter ha

/-! ### Claim theorems -/

/-- C1, counterexample: a session started at t = 0 and ended at t = 1000
has open-interval elapsed time 1000 ms, above the 500 ms threshold and
above the personal best 0, and the archived session holds the folded-in
1000 ms interval; yet the personal best after `end()` is still 0, not the
folded-in interval's duration. -/
theorem c1_counterexample :
    (run initState [Ev.start 0, Ev.tick 1000, Ev.finish 1000]).allSessions.map
        (fun r => r.intervals.map (·.duration)) = [[1000]] ∧
    (1000 : Int) > 500 ∧
    initState.personalBest = 0 ∧
    (run initState [Ev.start 0, Ev.tick 1000, Ev.finish 1000]).personalBest = 0 ∧
    ((run initState [Ev.start 0, Ev.tick 1000, Ev.finish 1000]).personalBest
        = 1000 → False) := by
  decide

/-- C1, amended: `endSession` never changes the personal best (in memory
or in its persisted record) — the synthetic end-of-session interval is not
folded into it; the personal best is updated only when `recordThought`
closes an interval, where it becomes the maximum of the previous best and
the closed interval's duration. -/
theorem c1_end_keeps_best (s : AppState) (now : Int) :
    (endSession now s).personalBest = s.personalBest ∧
    (endSession now s).storagePB = s.storagePB ∧
    (s.isActive = true → s.isPaused = false →
      (recordThought now s).personalBest
        = max s.personalBest s.currentInterval) :=
  ⟨endSession_personalBest now s, endSession_storagePB now s,
   fun ha hp => recordThought_best now s ha hp⟩

/-- C1, witness: at a concrete active state, `endSession` leaves the best
unchanged while `recordThought` folds the open interval into it. -/
theorem c1_witness :
    (endSession 99 sampleActive).personalBest = sampleActive.personalBest ∧
    (recordThought 99 sampleActive).personalBest
      = max sampleActive.personalBest sampleActive.currentInterval :=
  ⟨(c1_end_keeps_best sampleActive 99).1,
   (c1_end_keeps_best sampleActive 99).2.2 rfl rfl⟩

/-- C2: `endSession` applies the fixed 500 ms threshold to the open
interval: above the threshold the archived session's interval list is the
closed intervals plus one synthetic record with the elapsed duration and
id `closedIntervals.length + 1`; with zero closed intervals, ending at or
below the threshold leaves the archive (memory and storage) unchanged,
and ending above it archives exactly one session with `thoughtCount = 1`. -/
theorem c2_end_threshold (s : AppState) (now : Int) :
    (s.currentInterval > 500 →
      (endSession now s).allSessions.head?.map (·.intervals)
        = some (s.intervals ++
            [{ id := s.intervals.length + 1, duration := s.currentInterval,
               timestamp := now }])) ∧
    (s.currentInterval ≤ 500 → s.intervals = [] →
      (endSession now s).allSessions = s.allSessions ∧
      (endSession now s).storageSessions = s.storageSessions) ∧
    (s.currentInterval > 500 → s.intervals = [] →
      (endSession now s).allSessions.length = s.allSessions.length + 1 ∧
      (endSession now s).allSessions.head?.map (·.thoughtCount) = some 1) := by
  refine ⟨fun h => ?_, fun h hint => ?_, fun h hint => ?_⟩
  · simp only [endSession, finalIntervalsOf, if_pos h]
    rw [if_pos (by simp)]
    simp [mkSessionRecord]
  · have hni : ¬ s.currentInterval > 500 := not_lt.mpr h
    simp only [endSession, finalIntervalsOf, if_neg hni, hint]
    exact ⟨rfl, rfl⟩
  · simp only [endSession, finalIntervalsOf, if_pos h, hint]
    rw [if_pos (by simp)]
    simp [mkSessionRecord, hint]

/-- C2, witness: with no closed interval, ending at 400 ms elapsed leaves
the archive unchanged, while ending at 800 ms elapsed archives exactly one
session with a single thought. -/
theorem c2_witness :
    (endSession 400 s400).allSessions = s400.allSessions ∧
    (endSession 800 s800).allSessions.length = s800.allSessions.length + 1 ∧
    (endSession 800 s800).allSessions.head?.map (·.thoughtCount) = some 1 := by
  refine ⟨((c2_end_threshold s400 400).2.1 (by decide) (by decide)).1, ?_, ?_⟩
  · exact ((c2_end_threshold s800 800).2.2 (by decide) (by decide)).1
  · exact ((c2_end_threshold s800 800).2.2 (by decide) (by decide)).2

/-- C3, counterexample: at the claim's own concrete scenario — start at
the literal clock value t = 0, thoughts at t = 1200 and t = 1900, end at
t = 2300 — the archived session does have 2 intervals and longest gap
1200 ms, but `sessionStartTime ? now - sessionStartTime : 0` treats the
falsy start value 0 as unset, so `totalDuration` is 0, not 2300. -/
theorem c3_counterexample :
    (endSession 2300 scenarioZeroPre).allSessions.map
      (fun r => (r.thoughtCount, r.longestGap, r.totalDuration))
      = [(2, 1200, 0)] ∧
    (0 : Int) ≠ 2300 := by
  decide

/-- C3, amended: whenever `endSession` finalizes a non-empty interval
list, the archived session has `thoughtCount` equal to the number of
intervals, a `longestGap` that bounds every duration and is one of them
(or 0), and an `avgGap` that is the exact mean of the durations;
`totalDuration` equals the end time minus the session start time whenever
the start clock value is non-zero (the code's truthiness test on
`sessionStartTime` yields `totalDuration = 0` for a session started at
clock value 0). -/
theorem c3_finalize_stats (s : AppState) (now t0 : Int)
    (hne : finalIntervalsOf now s ≠ [])
    (hstart : s.sessionStartTime = some t0) (ht0 : t0 ≠ 0) :
    ∃ sess, (endSession now s).allSessions = sess :: s.allSessions ∧
      sess.thoughtCount = (finalIntervalsOf now s).length ∧
      (∀ d ∈ (finalIntervalsOf now s).map (·.duration), d ≤ sess.longestGap) ∧
      (sess.longestGap ∈ (finalIntervalsOf now s).map (·.duration) ∨
        sess.longestGap = 0) ∧
      sess.avgGap * ((finalIntervalsOf now s).length : ℚ)
        = (((finalIntervalsOf now s).map (·.duration)).sum : ℚ) ∧
      sess.totalDuration = now - t0 := by
  refine ⟨mkSessionRecord now (finalIntervalsOf now s) (now - t0), ?_, rfl,
    le_listMax _, listMax_mem_or_zero _, ?_, rfl⟩
  · simp only [endSession, hstart]
    rw [if_pos ht0, if_pos (List.length_pos.mpr hne)]
  · have hlen : ((finalIntervalsOf now s).length : ℚ) ≠ 0 :=
      Nat.cast_ne_zero.mpr (List.length_pos.mpr hne).ne'
    exact div_mul_cancel₀ _ hlen

/-- C3, witness: the concrete scenario at the non-zero start offset 1 —
start at t = 1, thoughts at t = 1201 and t = 1901, end at t = 2301 with
the 400 ms open interval discarded — satisfies the general statement and
yields 2 intervals, longest gap 1200 ms, average gap 950 ms, total
duration 2300 ms. -/
theorem c3_witness :
    (∃ sess, (endSession 2301 scenarioPre).allSessions
        = sess :: scenarioPre.allSessions ∧
      sess.thoughtCount = (finalIntervalsOf 2301 scenarioPre).length ∧
      (∀ d ∈ (finalIntervalsOf 2301 scenarioPre).map (·.duration),
        d ≤ sess.longestGap) ∧
      (sess.longestGap ∈ (finalIntervalsOf 2301 scenarioPre).map (·.duration) ∨
        sess.longestGap = 0) ∧
      sess.avgGap * ((finalIntervalsOf 2301 scenarioPre).length : ℚ)
        = (((finalIntervalsOf 2301 scenarioPre).map (·.duration)).sum : ℚ) ∧
      sess.totalDuration = 2301 - 1) ∧
    (endSession 2301 scenarioPre).allSessions.map
      (fun r => (r.thoughtCount, r.longestGap, r.totalDuration))
      = [(2, 1200, 2300)] ∧
    (endSession 2301 scenarioPre).allSessions.map (·.avgGap) = [(950 : ℚ)] := by
  refine ⟨c3_finalize_stats scenarioPre 2301 1 (by decide) rfl (by decide),
    by decide, ?_⟩
  norm_num [endSession, scenarioPre, run, step, startSession, tick, recordThought,
    togglePause, finalIntervalsOf, mkSessionRecord, initState, listMax]

/-- C4, counterexample: on an unparseable stored personal-best string the
load effect stores `parseInt`'s `NaN`, not the zero default the claim
requires. -/
theorem c4_counterexample :
    loadPersonalBest (some "abc") = JsNum.nan ∧ JsNum.nan ≠ JsNum.val 0 := by
  decide

/-- C4, amended: on load, an unparseable session-archive string is
recovered to the empty archive with no error; an unparseable (non-empty)
personal-best string, however, is not reset to zero — `parseInt` yields
`NaN` and that value is stored as the personal best. No error surfaces in
either case. -/
theorem c4_load_behavior (parse : String → Option (List SessionRecord))
    (sarch spb : String) (harch : parse sarch = none)
    (hpb : parseIntJs spb = JsNum.nan) (hne : spb.isEmpty = false) :
    loadSessions parse (some sarch) = [] ∧
    loadPersonalBest (some spb) = JsNum.nan := by
  constructor
  · unfold loadSessions
    by_cases h : sarch.isEmpty <;> simp [h, harch]
  · simp [loadPersonalBest, hne, hpb]

/-- C4, witness: a concrete archive string whose parse throws loads as the
empty archive, and a concrete unparseable best string loads as `NaN`. -/
theorem c4_witness :
    loadSessions (fun _ => none) (some "zz") = [] ∧
    loadPersonalBest (some "qq") = JsNum.nan :=
  c4_load_behavior (fun _ => none) "zz" "qq" rfl (by decide) (by decide)

/-- C5, counterexample: two sessions finalized in the same millisecond
share id 501 (reachable: the second session records one zero-duration
thought and ends in the millisecond it started); `deleteSession 501` then
removes both records, not exactly one. -/
theorem c5_counterexample :
    (∃ r ∈ dupState.allSessions, r.id = 501) ∧
    dupState.allSessions.length = 2 ∧
    (deleteSession 501 dupState).allSessions.length = 0 := by
  decide

/-- C5, amended: `deleteSession id` removes every record whose id matches
(equivalently, the unique such record whenever the archive's ids are
distinct, in which case the archive shrinks by exactly one entry when the
id is present), is a no-op on the archive when no record has the id, and
is idempotent on the whole state. -/
theorem c5_delete_semantics (s : AppState) (id : Int) :
    ((s.allSessions.map (·.id)).Nodup →
      (deleteSession id s).allSessions
        = s.allSessions.eraseP (fun r => r.id == id)) ∧
    ((s.allSessions.map (·.id)).Nodup → (∃ r ∈ s.allSessions, r.id = id) →
      (deleteSession id s).allSessions.length + 1 = s.allSessions.length) ∧
    ((∀ r ∈ s.allSessions, r.id ≠ id) →
      (deleteSession id s).allSessions = s.allSessions) ∧
    deleteSession id (deleteSession id s) = deleteSession id s := by
  refine ⟨fun hn => filter_ne_eraseP s.allSessions id hn,
          fun hn hm => filter_ne_length s.allSessions id hn hm,
          fun hall => ?_, ?_⟩
  · apply List.filter_eq_self.mpr
    intro r hr
    simpa using hall r hr
  · simp [deleteSession, filter_ne_idem]

/-- C5, witness: on a one-session archive (id 501), deleting 501 shrinks
the archive by one, deleting the absent id 99 leaves it unchanged, and
deleting 99 twice equals deleting it once. -/
theorem c5_witness :
    (deleteSession 501 oneState).allSessions.length + 1
        = oneState.allSessions.length ∧
    (deleteSession 99 oneState).allSessions = oneState.allSessions ∧
    deleteSession 99 (deleteSession 99 oneState) = deleteSession 99 oneState :=
  ⟨(c5_delete_semantics oneState 501).2.1 (by decide) (by decide),
   (c5_delete_semantics oneState 99).2.2.1 (by decide),
   (c5_delete_semantics oneState 99).2.2.2⟩

/-- C6: the personal best is monotonically non-decreasing across every
sequence of operations, and closing an interval of duration x via
`recordThought` when the best is b leaves the best equal to max b x. -/
theorem c6_best_monotone (s : AppState) (evs : List Ev) (now : Int) :
    s.personalBest ≤ (run s evs).personalBest ∧
    (s.isActive = true → s.isPaused = false →
      (recordThought now s).personalBest
        = max s.personalBest s.currentInterval) :=
  ⟨run_best_le evs s, fun ha hp => recordThought_best now s ha hp⟩

/-- C6, witness: a concrete run keeps the best non-decreasing and a
concrete `recordThought` yields the max of best and open duration. -/
theorem c6_witness :
    initState.personalBest ≤ (run initState [Ev.start 3]).personalBest ∧
    (recordThought 99 s400).personalBest
      = max s400.personalBest s400.currentInterval :=
  ⟨(c6_best_monotone initState [Ev.start 3] 0).1,
   (c6_best_monotone s400 [] 99).2 rfl rfl⟩

/-- C7: `recordThought` while idle or while paused is a silent no-op: the
entire state — closed intervals, open elapsed time, personal best,
archive, storage — is left unchanged. -/
theorem c7_record_noop (s : AppState) (now : Int)
    (h : s.isActive = false ∨ s.isPaused = true) :
    recordThought now s = s := by
  rcases h with h | h <;> simp [recordThought, h]

/-- C7, witness: `recordThought` at the idle initial state and at a
concrete paused state returns the state unchanged. -/
theorem c7_witness :
    recordThought 5 initState = initState ∧
    recordThought 15 samplePaused = samplePaused :=
  ⟨c7_record_noop initState 5 (Or.inl rfl),
   c7_record_noop samplePaused 15 (Or.inr rfl)⟩

/-- C8: while paused, a tick leaves the state (hence the open elapsed
time) unchanged; pausing or resuming does not itself change the elapsed
time; and after resuming at time r, any non-empty train of ticks advances
the elapsed time by exactly the wall-clock delta since the resume (the
last tick time minus r), so no paused wall-clock time is ever included. -/
theorem c8_pause_excluded (s : AppState) (tp r : Int) (ts : List Int)
    (hts : ts ≠ []) (ha : s.isActive = true) (hp : s.isPaused = true) :
    tick tp s = s ∧
    (togglePause r s).currentInterval = s.currentInterval ∧
    (run (togglePause r s) (ts.map Ev.tick)).currentInterval
      = s.currentInterval + (ts.getLast hts - r) := by
  refine ⟨tick_of_paused tp s hp, rfl, ?_⟩
  rw [togglePause_resume r s ha hp,
      run_ticks ts { s with isPaused := false, lastUpdate := r } ha rfl]
  simp [List.getLastD_eq_getLast?, List.getLast?_eq_getLast _ hts]

/-- C8, witness: paused at t = 500 with 500 ms elapsed, a late tick at
t = 9999 changes nothing; resuming at t = 700 and ticking at t = 800
advances the elapsed time to 600 ms, excluding the paused span. -/
theorem c8_witness :
    tick 9999 pausedAt500 = pausedAt500 ∧
    (run (togglePause 700 pausedAt500) [Ev.tick 800]).currentInterval
      = pausedAt500.currentInterval + (800 - 700) := by
  have h := c8_pause_excluded pausedAt500 9999 700 [800] (by decide) rfl rfl
  exact ⟨h.1, h.2.2⟩

/-- C9: `deleteSession` never changes the personal best, neither the
in-memory value nor its persisted record. -/
theorem c9_delete_frames_best (s : AppState) (id : Int) :
    (deleteSession id s).personalBest = s.personalBest ∧
    (deleteSession id s).storagePB = s.storagePB :=
  ⟨rfl, rfl⟩

/-- C10: no minimum-duration threshold applies to live recording: in any
active unpaused state, `recordThought` appends an interval whose duration
is exactly the current open elapsed time — even 0 — while the 500 ms
threshold is applied only to the open interval folded in at `endSession`. -/
theorem c10_no_live_threshold (s : AppState) (now : Int)
    (ha : s.isActive = true) (hp : s.isPaused = false) :
    (recordThought now s).intervals
      = s.intervals ++
        [{ id := s.intervals.length + 1, duration := s.currentInterval,
           timestamp := now }] ∧
    (s.currentInterval ≤ 500 → finalIntervalsOf now s = s.intervals) := by
  constructor
  · simp [recordThought, ha, hp]
  · intro h
    simp [finalIntervalsOf, not_lt.mpr h]

/-- C10, witness: right after a thought at t = 7 the open elapsed time is
0, and a second `recordThought` at t = 7 still appends a 0 ms interval;
the open interval (0 ≤ 500) would be discarded by `endSession`. -/
theorem c10_witness :
    oneTap.currentInterval = 0 ∧
    (recordThought 7 oneTap).intervals
      = oneTap.intervals ++
        [{ id := oneTap.intervals.length + 1, duration := oneTap.currentInterval,
           timestamp := 7 }] ∧
    finalIntervalsOf 7 oneTap = oneTap.intervals :=
  ⟨by decide, (c10_no_live_threshold oneTap 7 rfl rfl).1,
   (c10_no_live_threshold oneTap 7 rfl rfl).2 (by decide)⟩

end Stillness


